import Mathlib

/-!
# Verification of the nak_mc_worker run ledger and reset orchestration

A shallow embedding of the Cloudflare-worker speedrun tracker
(`src/index.ts`, feature-complete revision, together with `src/exaroton.ts`).

* The elapsed-time accounting fold of `calculateStats` over a run's ordered
  time log.
* `formatDuration`, the human-readable duration renderer.
* The relational state (`runs`, `time_logs`, `solved_seeds`) and the
  `update-state` and `finish` operations over it.
* The background reset / reseed orchestrations against the remote game
  server, modelled as effect traces driven by an environment oracle.

Timestamps and millisecond totals are JavaScript numbers used only through
integer-valued arithmetic (`Date.now()`, subtraction, addition), so they are
embedded as `Int`; actions are the raw `TEXT` strings stored in `time_logs`.
-/

namespace NakMcWorker

/-- One row of the `SELECT action, timestamp FROM time_logs ... ORDER BY
timestamp ASC` result that `calculateStats` folds over. -/
structure TimeLog where
  action : String
  timestamp : Int
deriving DecidableEq, Repr

/-- The mutable state of the accounting loop in `calculateStats`:
`totalTimeMs`, `lastStartTime`, `isRunning`. -/
structure FoldState where
  totalTimeMs : Int
  lastStartTime : Int
  isRunning : Bool
deriving DecidableEq, Repr

/-- The body of the `for (const log of timeLogs.results)` loop in
`calculateStats`: START/RESUME turn the clock on if it is off
(recording `lastStartTime`), PAUSE/END turn it off if it is on
(accumulating `log.timestamp - lastStartTime`); all other actions
leave the state untouched. -/
def stepLog (st : FoldState) (log : TimeLog) : FoldState :=
  if log.action = "START" ∨ log.action = "RESUME" then
    if st.isRunning then st
    else { st with lastStartTime := log.timestamp, isRunning := true }
  else if log.action = "PAUSE" ∨ log.action = "END" then
    if st.isRunning then
      { st with totalTimeMs := st.totalTimeMs + (log.timestamp - st.lastStartTime),
                isRunning := false }
    else st
  else st

/-- The whole accounting loop: fold `stepLog` over the ordered log starting
from `totalTimeMs = 0`, `lastStartTime = 0`, `isRunning = false`. -/
def foldLogs (logs : List TimeLog) : FoldState :=
  logs.foldl stepLog ⟨0, 0, false⟩

/-- The elapsed total returned by `calculateStats`: the fold result, plus
`Date.now() - lastStartTime` when the replay ends with the clock on
(`if (isRunning) totalTimeMs += (Date.now() - lastStartTime)`). -/
def totalTime (logs : List TimeLog) (now : Int) : Int :=
  let st := foldLogs logs
  if st.isRunning then st.totalTimeMs + (now - st.lastStartTime) else st.totalTimeMs

/-- `formatDuration` from `src/index.ts`.  The source computes
`Math.floor((ms / 1000) % 60)`, `Math.floor((ms / (1000*60)) % 60)` and
`Math.floor(ms / (1000*60*60))` over JavaScript reals; for a non-negative
integer `ms` these equal the floor-division forms used here.  Note the
template literal is `` `${hours}h ${minutes}m ${seconds} s` ``: there is a
space between the seconds value and the trailing `s`. -/
def formatDuration (ms : Nat) : String :=
  let seconds := ms / 1000 % 60
  let minutes := ms / (1000 * 60) % 60
  let hours := ms / (1000 * 60 * 60)
  toString hours ++ "h " ++ toString minutes ++ "m " ++ toString seconds ++ " s"

/-- The spec's wording of the renderer, for the refinement comparison:
decompose total milliseconds into whole seconds, then take seconds modulo 60,
minutes modulo 60, and uncapped hours. -/
def specFormatDuration (ms : Nat) : String :=
  let totalSeconds := ms / 1000
  let s := totalSeconds % 60
  let m := totalSeconds / 60 % 60
  let h := totalSeconds / 3600
  toString h ++ "h " ++ toString m ++ "m " ++ toString s ++ " s"

/-- A row of the `runs` table (feature-complete schema: id, type, seed,
goal, target_mob, hardcore, set_seed, status, created_at, ended_at,
duration, completion_details). -/
structure Run where
  id : String
  type : String
  seed : String
  goal : String
  target_mob : Option String
  hardcore : Bool
  set_seed : Bool
  status : String
  created_at : Int
  ended_at : Option Int
  duration : Option Int
  completion_details : Option String
deriving DecidableEq, Repr

/-- A row of the `time_logs` table (the autoincrement id is the position in
the list; rows are only ever appended). -/
structure TimeLogRow where
  run_id : String
  action : String
  timestamp : Int
deriving DecidableEq, Repr

/-- The durable state the run-ledger endpoints read and write: the `runs`,
`time_logs` and `solved_seeds` tables.  `solved_seeds` rows are
(seed, solved_at) with seed as primary key. -/
structure DB where
  runs : List Run
  timeLogs : List TimeLogRow
  solvedSeeds : List (String × Int)
deriving DecidableEq, Repr

/-- `SELECT ... FROM runs WHERE id = ?` followed by `.first()`. -/
def findRun (db : DB) (rid : String) : Option Run :=
  db.runs.find? (fun r => r.id = rid)

/-- Stable insertion of a time-log row into a timestamp-ascending list,
placing the new row after all rows with timestamp ≤ its own. -/
def insertSorted (e : TimeLog) : List TimeLog → List TimeLog
  | [] => [e]
  | x :: xs => if x.timestamp ≤ e.timestamp then x :: insertSorted e xs
               else e :: x :: xs

/-- `ORDER BY timestamp ASC` over the selected rows. -/
def sortLogs : List TimeLog → List TimeLog
  | [] => []
  | x :: xs => insertSorted x (sortLogs xs)

/-- `SELECT action, timestamp FROM time_logs WHERE run_id = ? ORDER BY
timestamp ASC`. -/
def runLogs (db : DB) (rid : String) : List TimeLog :=
  sortLogs ((db.timeLogs.filter (fun l => l.run_id = rid)).map
    (fun l => ⟨l.action, l.timestamp⟩))

/-- The `duration_ms` field computed by `calculateStats`: `none` when the
run does not exist (the function throws "Run not found"), otherwise the
accounting fold over the run's ordered log plus the live now-term. -/
def calculateStatsDuration (db : DB) (rid : String) (now : Int) : Option Int :=
  match findRun db rid with
  | none => none
  | some _ => some (totalTime (runLogs db rid) now)

/-- The `switch (action)` of the update-state endpoint: START/RESUME map to
RUNNING, PAUSE to PAUSED, ABORT to ABORTED, FAIL to FAILED, anything else
falls into the `default` rejection branch. -/
def actionStatus (action : String) : Option String :=
  if action = "START" ∨ action = "RESUME" then some "RUNNING"
  else if action = "PAUSE" then some "PAUSED"
  else if action = "ABORT" then some "ABORTED"
  else if action = "FAIL" then some "FAILED"
  else none

/-- Result of a POST /api/run/update-state call. -/
inductive UpdateResult where
  | ok (status : String)
  | invalidAction
  | missingFields
deriving DecidableEq, Repr

/-- POST /api/run/update-state: reject when `run_id` or `action` is falsy
(empty string) or when the action is outside the vocabulary — both before
any database write; otherwise update the run's status to the mapped value
and append a time-log row carrying the raw action string. -/
def updateState (db : DB) (run_id action : String) (now : Int) :
    DB × UpdateResult :=
  if run_id = "" ∨ action = "" then (db, .missingFields)
  else
    match actionStatus action with
    | none => (db, .invalidAction)
    | some newStatus =>
      let runs' := db.runs.map (fun r =>
        if r.id = run_id then { r with status := newStatus } else r)
      ({ db with runs := runs',
                 timeLogs := db.timeLogs ++ [⟨run_id, action, now⟩] },
       .ok newStatus)

/-- `INSERT OR IGNORE INTO solved_seeds (seed, solved_at) VALUES (?, ?)`:
append only when no row with that seed exists. -/
def insertOrIgnoreSolved (tbl : List (String × Int)) (seed : String)
    (t : Int) : List (String × Int) :=
  if tbl.any (fun p => p.1 = seed) then tbl else tbl ++ [(seed, t)]

/-- Number of `solved_seeds` rows for a given seed. -/
def countSeed (tbl : List (String × Int)) (seed : String) : Nat :=
  (tbl.filter (fun p => p.1 = seed)).length

/-- The `solved_at` of the first `solved_seeds` row for a given seed. -/
def firstSolved (tbl : List (String × Int)) (seed : String) : Option Int :=
  (tbl.find? (fun p => p.1 = seed)).map (fun p => p.2)

/-- POST /api/run/finish: set status FINISHED / ended_at / completion
details on the run row, append an END time-log row, insert-if-absent the
run's seed into `solved_seeds`, recompute the duration with
`calculateStats` (called a moment later, at `statsNow`), and persist it.
When the run row is missing, `calculateStats` throws after the first two
writes, so the result carries no duration. -/
def finishRun (db : DB) (run_id : String) (now statsNow : Int)
    (completion_details : Option String) : DB × Option Int :=
  let runs₁ := db.runs.map (fun r =>
    if r.id = run_id then
      { r with status := "FINISHED", ended_at := some now,
               completion_details := completion_details }
    else r)
  let db₁ : DB := { db with runs := runs₁,
                            timeLogs := db.timeLogs ++ [⟨run_id, "END", now⟩] }
  match findRun db₁ run_id with
  | none => (db₁, none)
  | some run =>
    let db₂ : DB := { db₁ with
      solvedSeeds := insertOrIgnoreSolved db₁.solvedSeeds run.seed now }
    let dur := totalTime (runLogs db₂ run_id) statsNow
    let runs₂ := db₂.runs.map (fun r =>
      if r.id = run_id then { r with duration := some dur } else r)
    ({ db₂ with runs := runs₂ }, some dur)

/-- An alternating START/PAUSE log built from a list of (start, pause)
timestamp pairs. -/
def mkPairsLog : List (Int × Int) → List TimeLog
  | [] => []
  | (s, p) :: rest => ⟨"START", s⟩ :: ⟨"PAUSE", p⟩ :: mkPairsLog rest

/-- Sum of `pause - start` over a list of (start, pause) pairs. -/
def sumGaps : List (Int × Int) → Int
  | [] => 0
  | (s, p) :: rest => (p - s) + sumGaps rest

/-- Strictly increasing timestamps across an alternating START/PAUSE pair
list: each start precedes its pause, and each pause precedes the next start. -/
def pairsOrdered : List (Int × Int) → Bool
  | [] => true
  | [(s, p)] => s < p
  | (s, p) :: (s₂, p₂) :: rest => s < p && p < s₂ && pairsOrdered ((s₂, p₂) :: rest)

/-- A sample runs row used to instantiate the database-level theorems. -/
def sampleRun : Run :=
  ⟨"r1", "SOLO", "seed-1", "ENDER_DRAGON", none, false, false, "CREATED",
   100, none, none, none⟩

/-- A one-run database with no time logs and no solved seeds. -/
def sampleDB : DB := ⟨[sampleRun], [], []⟩

/-- A call the background orchestrations issue against the Exaroton client
or the runtime (`setTimeout`). -/
inductive Effect where
  | stopServer
  | getStatus
  | sleep (ms : Int)
  | deleteFile (path : String)
  | startServer
  | restartServer
  | getFile (path : String)
  | uploadFile (path content : String)
deriving DecidableEq, Repr

/-- The offline-wait loop `while (status !== 0 && attempts < 100) {
await sleep(3000); status = await getServerStatus(); attempts++; }`,
driven by an oracle giving the status returned by the i-th poll.  The
`remaining` argument is `100 - attempts`; it makes the loop structurally
recursive and is consumed exactly as the source's attempt counter grows.
Returns the loop's trace (a sleep and a poll per iteration) and the final
status. -/
def waitTrace (statuses : Nat → Int) : Int → Nat → Nat → List Effect × Int
  | status, _, 0 => ([], status)
  | status, attempts, r + 1 =>
    if status = 0 then ([], status)
    else
      let p := waitTrace statuses (statuses (attempts + 1)) (attempts + 1) r
      (Effect.sleep 3000 :: Effect.getStatus :: p.1, p.2)

/-- The background task of POST /api/run/reset: stop the server, poll until
OFFLINE with at most 100 further attempts, abort if the server never went
offline, otherwise delete the three world directories (best-effort) and
start the server. -/
def resetTask (statuses : Nat → Int) : List Effect :=
  let p := waitTrace statuses (statuses 0) 0 100
  Effect.stopServer :: Effect.getStatus :: p.1 ++
    (if p.2 ≠ 0 then []
     else [Effect.deleteFile "world", Effect.deleteFile "world_nether",
           Effect.deleteFile "world_the_end", Effect.startServer])

/-- Rewrite or append the `level-seed=` line of server.properties, exactly
as the restart endpoint does: map every `level-seed=` line to the new
seed, and push a fresh line when none was present. -/
def rewriteSeedProps (content seed : String) : String :=
  let lines := content.splitOn "\n"
  let newLines := lines.map (fun line =>
    if line.startsWith "level-seed=" then "level-seed=" ++ seed else line)
  let newLines' :=
    if lines.any (fun l => l.startsWith "level-seed=") then newLines
    else newLines ++ ["level-seed=" ++ seed]
  String.intercalate "\n" newLines'

/-- The remote environment the reseed orchestration runs against: the
status oracle, the server.properties fetch result (`none` when the fetch
throws), and whether the upload succeeds. -/
structure RestartEnv where
  statuses : Nat → Int
  propsContent : Option String
  uploadOk : Bool

/-- The background task of POST /api/server/restart: with no seed a single
restart call; with a seed, stop, wait for OFFLINE (abort when not reached),
fetch and rewrite server.properties and write it back (abort on failure of
either), then delete the world directories and start the server. -/
def restartTask (env : RestartEnv) : Option String → List Effect
  | none => [Effect.restartServer]
  | some seed =>
    let p := waitTrace env.statuses (env.statuses 0) 0 100
    Effect.stopServer :: Effect.getStatus :: p.1 ++
      (if p.2 ≠ 0 then []
       else
        match env.propsContent with
        | none => [Effect.getFile "server.properties"]
        | some content =>
          Effect.getFile "server.properties" ::
          Effect.uploadFile "server.properties" (rewriteSeedProps content seed) ::
          (if env.uploadOk then
            [Effect.deleteFile "world", Effect.deleteFile "world_nether",
             Effect.deleteFile "world_the_end", Effect.startServer]
           else []))

/-- World mutation or start: the effects that must not happen after an
aborted orchestration. -/
def isMutation : Effect → Bool
  | .deleteFile _ => true
  | .startServer => true
  | _ => false

/-- A status poll. -/
def isPoll : Effect → Bool
  | .getStatus => true
  | _ => false

lemma stepLog_start (t l s : Int) :
    stepLog ⟨t, l, false⟩ ⟨"START", s⟩ = ⟨t, s, true⟩ := by
  simp [stepLog]

lemma stepLog_pause_on (t l p : Int) :
    stepLog ⟨t, l, true⟩ ⟨"PAUSE", p⟩ = ⟨t + (p - l), l, false⟩ := by
  simp [stepLog]

lemma stepLog_on_edge_while_on (st : FoldState) (e : TimeLog)
    (hrun : st.isRunning = true) (h : e.action = "START" ∨ e.action = "RESUME") :
    stepLog st e = st := by
  unfold stepLog
  rw [if_pos h, hrun]
  simp

lemma stepLog_off_edge_while_off (st : FoldState) (e : TimeLog)
    (hrun : st.isRunning = false) (h : e.action = "PAUSE" ∨ e.action = "END") :
    stepLog st e = st := by
  have hne : ¬(e.action = "START" ∨ e.action = "RESUME") := by
    rcases h with h | h <;> rw [h] <;> decide
  unfold stepLog
  rw [if_neg hne, if_pos h, hrun]
  simp

lemma stepLog_other (st : FoldState) (e : TimeLog)
    (h1 : ¬(e.action = "START" ∨ e.action = "RESUME"))
    (h2 : ¬(e.action = "PAUSE" ∨ e.action = "END")) :
    stepLog st e = st := by
  unfold stepLog
  rw [if_neg h1, if_neg h2]

lemma stepLog_not_on_edge_while_off (st : FoldState) (e : TimeLog)
    (hrun : st.isRunning = false) (h : ¬(e.action = "START" ∨ e.action = "RESUME")) :
    stepLog st e = st := by
  by_cases h2 : e.action = "PAUSE" ∨ e.action = "END"
  · exact stepLog_off_edge_while_off st e hrun h2
  · exact stepLog_other st e h h2

/-- Folding `stepLog` from an off state over a list with no clock-on edges
leaves the state untouched. -/
lemma foldl_off_no_on_edge (l : List TimeLog) (st : FoldState)
    (hrun : st.isRunning = false)
    (h : ∀ e ∈ l, ¬(e.action = "START" ∨ e.action = "RESUME")) :
    l.foldl stepLog st = st := by
  induction l with
  | nil => rfl
  | cons e rest ih =>
    have hstep : stepLog st e = st :=
      stepLog_not_on_edge_while_off st e hrun (h e (List.mem_cons_self e rest))
    rw [List.foldl_cons, hstep]
    exact ih fun x hx => h x (List.mem_cons_of_mem e hx)

/-- After an END edge the clock is always off. -/
lemma stepLog_end_off (st : FoldState) (t : Int) :
    (stepLog st ⟨"END", t⟩).isRunning = false := by
  cases hrun : st.isRunning
  · rw [stepLog_off_edge_while_off st ⟨"END", t⟩ hrun (Or.inr rfl)]
    exact hrun
  · unfold stepLog
    simp [hrun]

/-- Folding an alternating START/PAUSE pair log from any off state adds
exactly the sum of the pause-start gaps and ends with the clock off. -/
lemma foldl_pairs (ps : List (Int × Int)) :
    ∀ t l : Int,
      ((mkPairsLog ps).foldl stepLog ⟨t, l, false⟩).totalTimeMs = t + sumGaps ps ∧
      ((mkPairsLog ps).foldl stepLog ⟨t, l, false⟩).isRunning = false := by
  induction ps with
  | nil => intro t l; simp [mkPairsLog, sumGaps]
  | cons hd rest ih =>
    intro t l
    obtain ⟨s, p⟩ := hd
    rw [mkPairsLog, List.foldl_cons, List.foldl_cons, stepLog_start,
      stepLog_pause_on]
    obtain ⟨h1, h2⟩ := ih (t + (p - s)) s
    rw [h1, h2]
    refine ⟨?_, rfl⟩
    rw [sumGaps, add_assoc]

/-- C1: The accounting fold treats START/RESUME as clock-on edges and
PAUSE/END as clock-off edges, ignoring a clock-on edge while the clock is
already on and a clock-off edge while it is already off; for every log of
alternating START/PAUSE pairs with strictly increasing timestamps the total
equals the sum of the matched pause − start gaps, and a RESUME arriving
while already on is a no-op: [START@0, RESUME@500, PAUSE@2000] yields
2000 ms. -/
theorem c1_fold_edges_and_alternating_pairs :
    (∀ (st : FoldState) (e : TimeLog), st.isRunning = true →
      (e.action = "START" ∨ e.action = "RESUME") → stepLog st e = st) ∧
    (∀ (st : FoldState) (e : TimeLog), st.isRunning = false →
      (e.action = "PAUSE" ∨ e.action = "END") → stepLog st e = st) ∧
    (∀ (ps : List (Int × Int)) (now : Int), pairsOrdered ps = true →
      totalTime (mkPairsLog ps) now = sumGaps ps) ∧
    (∀ now : Int,
      totalTime [⟨"START", 0⟩, ⟨"RESUME", 500⟩, ⟨"PAUSE", 2000⟩] now = 2000) := by
  refine ⟨stepLog_on_edge_while_on, stepLog_off_edge_while_off, ?_, ?_⟩
  · intro ps now _
    obtain ⟨h1, h2⟩ := foldl_pairs ps 0 0
    unfold totalTime foldLogs
    rw [if_neg (by rw [h2]; exact Bool.false_ne_true), h1, zero_add]
  · intro now
    unfold totalTime foldLogs
    have hR : stepLog ⟨0, 0, true⟩ ⟨"RESUME", 500⟩ = ⟨0, 0, true⟩ :=
      stepLog_on_edge_while_on ⟨0, 0, true⟩ ⟨"RESUME", 500⟩ rfl (Or.inr rfl)
    rw [List.foldl_cons, List.foldl_cons, List.foldl_cons, List.foldl_nil,
      stepLog_start, hR, stepLog_pause_on]
    simp

theorem c1_witness :
    pairsOrdered [((0 : Int), (1000 : Int)), (1500, 1700)] = true ∧
    totalTime (mkPairsLog [((0 : Int), (1000 : Int)), (1500, 1700)]) 9999 = 1200 ∧
    totalTime [⟨"START", 0⟩, ⟨"RESUME", 500⟩, ⟨"PAUSE", 2000⟩] 777 = 2000 :=
  ⟨by decide,
   c1_fold_edges_and_alternating_pairs.2.2.1 [(0, 1000), (1500, 1700)] 9999 (by decide),
   c1_fold_edges_and_alternating_pairs.2.2.2 777⟩

/-- C2: When the replay ends with the clock on, the stats computation adds
`now − lastStartTime` to the accumulated total; in particular log [START@0]
queried at now = 5000 yields a live elapsed of 5000 ms. -/
theorem c2_live_run_adds_now_term :
    (∀ (logs : List TimeLog) (now : Int), (foldLogs logs).isRunning = true →
      totalTime logs now
        = (foldLogs logs).totalTimeMs + (now - (foldLogs logs).lastStartTime)) ∧
    totalTime [⟨"START", 0⟩] 5000 = 5000 := by
  constructor
  · intro logs now h
    unfold totalTime
    rw [if_pos h]
  · decide

theorem c2_witness :
    totalTime [⟨"START", 0⟩] 5000
      = (foldLogs [⟨"START", 0⟩]).totalTimeMs
        + (5000 - (foldLogs [⟨"START", 0⟩]).lastStartTime) :=
  c2_live_run_adds_now_term.1 [⟨"START", 0⟩] 5000 (by decide)

/-- C3: ABORT and FAIL entries are not clock-off edges: inserting such an
entry at any position leaves the computed elapsed total unchanged, and an
aborted run whose clock is on keeps accumulating (log [START@0, ABORT@1000]
queried at now = 5000 still yields 5000 ms). -/
theorem c3_abort_fail_ignored :
    (∀ (pre post : List TimeLog) (e : TimeLog) (now : Int),
      e.action = "ABORT" ∨ e.action = "FAIL" →
      totalTime (pre ++ e :: post) now = totalTime (pre ++ post) now) ∧
    totalTime [⟨"START", 0⟩, ⟨"ABORT", 1000⟩] 5000 = 5000 := by
  constructor
  · intro pre post e now h
    have hstep : ∀ st : FoldState, stepLog st e = st := by
      intro st
      refine stepLog_other st e ?_ ?_ <;>
        rcases h with h | h <;> rw [h] <;> decide
    unfold totalTime foldLogs
    rw [List.foldl_append, List.foldl_append, List.foldl_cons, hstep]
  · decide

theorem c3_witness :
    totalTime ([⟨"START", 0⟩] ++ ⟨"FAIL", 400⟩ :: [⟨"PAUSE", 900⟩]) 5000
      = totalTime ([⟨"START", 0⟩] ++ [⟨"PAUSE", 900⟩]) 5000 :=
  c3_abort_fail_ignored.1 [⟨"START", 0⟩] [⟨"PAUSE", 900⟩] ⟨"FAIL", 400⟩ 5000
    (Or.inr rfl)

/-- C4 counterexample: the claim says 3,661,000 ms formats as "1h 1m 1s",
but `formatDuration` renders the template literal `${hours}h ${minutes}m
${seconds} s`, producing "1h 1m 1 s" (space before the trailing s). -/
theorem c4_counterexample : formatDuration 3661000 ≠ "1h 1m 1s" := by
  decide

/-- C4 (amended): for every non-negative millisecond total the rendered
string is "{h}h {m}m {s} s" — with a space between the seconds value and
the trailing "s" — where h, m, s come from floor-based decomposition
(seconds and minutes modulo 60, hours uncapped, no rounding); in particular
3,661,000 ms formats as "1h 1m 1 s" and 59,000 ms as "0h 0m 59 s". -/
theorem c4_format_duration_floor_decomposition :
    (∀ ms : Nat, formatDuration ms = specFormatDuration ms) ∧
    formatDuration 3661000 = "1h 1m 1 s" ∧
    formatDuration 59000 = "0h 0m 59 s" := by
  refine ⟨?_, by decide, by decide⟩
  intro ms
  simp only [formatDuration, specFormatDuration, Nat.div_div_eq_div_mul]

/-- C5: update-state maps START/RESUME to RUNNING, PAUSE to PAUSED, ABORT
to ABORTED and FAIL to FAILED; any other action is rejected with the
database unchanged (no time-log row, no status change), and an accepted
call appends a time-log row carrying the raw action string. -/
theorem c5_update_state_vocabulary :
    (∀ (db : DB) (rid : String) (now : Int), rid ≠ "" →
      (updateState db rid "START" now).2 = .ok "RUNNING" ∧
      (updateState db rid "RESUME" now).2 = .ok "RUNNING" ∧
      (updateState db rid "PAUSE" now).2 = .ok "PAUSED" ∧
      (updateState db rid "ABORT" now).2 = .ok "ABORTED" ∧
      (updateState db rid "FAIL" now).2 = .ok "FAILED") ∧
    (∀ (db : DB) (rid a : String) (now : Int),
      a ≠ "START" → a ≠ "RESUME" → a ≠ "PAUSE" → a ≠ "ABORT" → a ≠ "FAIL" →
      (updateState db rid a now).1 = db) ∧
    (∀ (db : DB) (rid a : String) (now : Int) (st : String),
      (updateState db rid a now).2 = .ok st →
      (updateState db rid a now).1.timeLogs
        = db.timeLogs ++ [⟨rid, a, now⟩]) := by
  refine ⟨?_, ?_, ?_⟩
  · intro db rid now h
    refine ⟨?_, ?_, ?_, ?_, ?_⟩ <;> simp [updateState, actionStatus, h]
  · intro db rid a now h1 h2 h3 h4 h5
    by_cases hm : rid = "" ∨ a = ""
    · simp [updateState, hm]
    · simp [updateState, actionStatus, hm, h1, h2, h3, h4, h5]
  · intro db rid a now st h
    unfold updateState at h ⊢
    by_cases hm : rid = "" ∨ a = ""
    · rw [if_pos hm] at h
      exact absurd h (by simp)
    · rw [if_neg hm] at h ⊢
      cases has : actionStatus a with
      | none => rw [has] at h; exact absurd h (by simp)
      | some stat => rfl

theorem c5_witness :
    (updateState sampleDB "r1" "FAIL" 10).2 = .ok "FAILED" ∧
    (updateState sampleDB "r1" "BOGUS" 10).1 = sampleDB ∧
    (updateState sampleDB "r1" "FAIL" 10).1.timeLogs
      = sampleDB.timeLogs ++ [⟨"r1", "FAIL", 10⟩] :=
  ⟨(c5_update_state_vocabulary.1 sampleDB "r1" 10 (by decide)).2.2.2.2,
   c5_update_state_vocabulary.2.1 sampleDB "r1" "BOGUS" 10
     (by decide) (by decide) (by decide) (by decide) (by decide),
   c5_update_state_vocabulary.2.2 sampleDB "r1" "FAIL" 10 "FAILED"
     ((c5_update_state_vocabulary.1 sampleDB "r1" 10 (by decide)).2.2.2.2)⟩

lemma find?_id_map (l : List Run) (rid : String) (f : Run → Run)
    (hid : ∀ r, (f r).id = r.id) :
    (l.map f).find? (fun r => r.id = rid)
      = (l.find? (fun r => r.id = rid)).map f := by
  induction l with
  | nil => rfl
  | cons x xs ih =>
    by_cases h : x.id = rid
    · simp [List.find?_cons, hid x, h]
    · simp [List.find?_cons, hid x, h, ih]

lemma foldLogs_append (l₁ l₂ : List TimeLog) :
    foldLogs (l₁ ++ l₂) = List.foldl stepLog (foldLogs l₁) l₂ := by
  unfold foldLogs
  rw [List.foldl_append]

lemma countSeed_zero_any (tbl : List (String × Int)) (s : String)
    (h : countSeed tbl s = 0) : tbl.any (fun p => p.1 = s) = false := by
  unfold countSeed at h
  rw [List.length_eq_zero, List.filter_eq_nil_iff] at h
  rw [List.any_eq_false]
  intro x hx
  simpa using h x hx

lemma insertOrIgnoreSolved_absent (tbl : List (String × Int)) (s : String)
    (t : Int) (h : countSeed tbl s = 0) :
    insertOrIgnoreSolved tbl s t = tbl ++ [(s, t)] := by
  unfold insertOrIgnoreSolved
  rw [countSeed_zero_any tbl s h]
  rfl

lemma insertOrIgnoreSolved_present (tbl : List (String × Int)) (s : String)
    (t : Int) (h : countSeed tbl s ≠ 0) :
    insertOrIgnoreSolved tbl s t = tbl := by
  unfold insertOrIgnoreSolved
  unfold countSeed at h
  have hne : tbl.filter (fun p => p.1 = s) ≠ [] := by
    intro hnil
    rw [hnil] at h
    exact h rfl
  obtain ⟨x, hx⟩ := List.exists_mem_of_ne_nil _ hne
  rw [List.mem_filter] at hx
  rw [if_pos (List.any_eq_true.mpr ⟨x, hx.1, hx.2⟩)]

lemma countSeed_append_self (tbl : List (String × Int)) (s : String)
    (t : Int) : countSeed (tbl ++ [(s, t)]) s = countSeed tbl s + 1 := by
  simp [countSeed, List.filter_append]

lemma find?_append_none {α : Type} (p : α → Bool) (l₁ l₂ : List α)
    (h : l₁.find? p = none) : (l₁ ++ l₂).find? p = l₂.find? p := by
  induction l₁ with
  | nil => rfl
  | cons x xs ih =>
    cases hp : p x
    · rw [List.find?_cons_of_neg _ (by simp [hp])] at h
      rw [List.cons_append, List.find?_cons_of_neg _ (by simp [hp])]
      exact ih h
    · rw [List.find?_cons_of_pos _ hp] at h
      exact absurd h (by simp)

lemma firstSolved_append_absent (tbl : List (String × Int)) (s : String)
    (t : Int) (h : countSeed tbl s = 0) :
    firstSolved (tbl ++ [(s, t)]) s = some t := by
  unfold firstSolved
  have hn : tbl.find? (fun p => p.1 = s) = none := by
    rw [List.find?_eq_none]
    intro x hx
    unfold countSeed at h
    rw [List.length_eq_zero, List.filter_eq_nil_iff] at h
    simpa using h x hx
  rw [find?_append_none _ _ _ hn]
  simp [List.find?_cons]

lemma foldl_insert_ignored (s : String) (ts : List Int) :
    ∀ tbl : List (String × Int), countSeed tbl s ≠ 0 →
      ts.foldl (fun acc t => insertOrIgnoreSolved acc s t) tbl = tbl := by
  induction ts with
  | nil => intro tbl _; rfl
  | cons t rest ih =>
    intro tbl h
    rw [List.foldl_cons, insertOrIgnoreSolved_present tbl s t h]
    exact ih tbl h

/-- C6: finishing a run performs an insert-if-absent into `solved_seeds`
keyed by the run's seed, so any sequence of finishes on the same seed
leaves exactly one row for that seed, keeping the first-solved timestamp. -/
theorem c6_seed_solved_exactly_once :
    (∀ (db : DB) (rid : String) (now statsNow : Int) (cd : Option String)
        (run : Run), findRun db rid = some run →
      (finishRun db rid now statsNow cd).1.solvedSeeds
        = insertOrIgnoreSolved db.solvedSeeds run.seed now) ∧
    (∀ (tbl : List (String × Int)) (s : String) (t₀ : Int) (ts : List Int),
      countSeed tbl s = 0 →
      countSeed
        ((t₀ :: ts).foldl (fun acc t => insertOrIgnoreSolved acc s t) tbl) s
        = 1 ∧
      firstSolved
        ((t₀ :: ts).foldl (fun acc t => insertOrIgnoreSolved acc s t) tbl) s
        = some t₀) := by
  constructor
  · intro db rid now statsNow cd run h
    unfold findRun at h
    have hid : ∀ r : Run,
        ((fun r : Run =>
          if r.id = rid then
            { r with status := "FINISHED", ended_at := some now,
                     completion_details := cd }
          else r) r).id = r.id := by
      intro r
      by_cases hr : r.id = rid <;> simp [hr]
    have hrid : run.id = rid := by
      have := List.find?_some h
      simpa using this
    simp only [finishRun, findRun]
    rw [find?_id_map _ _ _ hid, h]
    simp [hrid]
  · intro tbl s t₀ ts h
    rw [List.foldl_cons, insertOrIgnoreSolved_absent tbl s t₀ h,
      foldl_insert_ignored s ts _ (by rw [countSeed_append_self, h]; decide)]
    refine ⟨?_, firstSolved_append_absent tbl s t₀ h⟩
    rw [countSeed_append_self, h]

theorem c6_witness :
    countSeed ([((5 : Int), 9)].map (fun _ => ("7", (5 : Int)))) "7" = 1 ∧
    countSeed
      (([2, 5, 9] : List Int).foldl
        (fun acc t => insertOrIgnoreSolved acc "7" t) []) "7" = 1 ∧
    firstSolved
      (([2, 5, 9] : List Int).foldl
        (fun acc t => insertOrIgnoreSolved acc "7" t) []) "7" = some 2 ∧
    (finishRun sampleDB "r1" 50 51 none).1.solvedSeeds
      = insertOrIgnoreSolved sampleDB.solvedSeeds "seed-1" 50 :=
  ⟨by decide,
   (c6_seed_solved_exactly_once.2 [] "7" 2 [5, 9] (by decide)).1,
   (c6_seed_solved_exactly_once.2 [] "7" 2 [5, 9] (by decide)).2,
   c6_seed_solved_exactly_once.1 sampleDB "r1" 50 51 none sampleRun rfl⟩

/-- C7: a second finish re-appends an END entry, which is a no-op in the
fold: the recomputed total over the extended log equals the total bounded
by the original END edge, provided no clock-on edges were added in
between (queried at any `now`). -/
theorem c7_double_finish_duration_stable :
    (∀ (db : DB) (rid : String) (now statsNow : Int) (cd : Option String),
      (finishRun db rid now statsNow cd).1.timeLogs
        = db.timeLogs ++ [⟨rid, "END", now⟩]) ∧
    (∀ (logs mid : List TimeLog) (t₁ t₂ now now' : Int),
      (∀ e ∈ mid, ¬(e.action = "START" ∨ e.action = "RESUME")) →
      totalTime (logs ++ ⟨"END", t₁⟩ :: (mid ++ [⟨"END", t₂⟩])) now
        = totalTime (logs ++ [⟨"END", t₁⟩]) now') := by
  constructor
  · intro db rid now statsNow cd
    simp only [finishRun]
    split <;> rfl
  · intro logs mid t₁ t₂ now now' h
    have hsplit : logs ++ ⟨"END", t₁⟩ :: (mid ++ [⟨"END", t₂⟩])
        = (logs ++ [⟨"END", t₁⟩]) ++ (mid ++ [⟨"END", t₂⟩]) := by
      simp
    have hoff : (foldLogs (logs ++ [⟨"END", t₁⟩])).isRunning = false := by
      rw [foldLogs_append, List.foldl_cons, List.foldl_nil]
      exact stepLog_end_off _ t₁
    have hfold : foldLogs (logs ++ ⟨"END", t₁⟩ :: (mid ++ [⟨"END", t₂⟩]))
        = foldLogs (logs ++ [⟨"END", t₁⟩]) := by
      rw [hsplit]
      calc foldLogs ((logs ++ [⟨"END", t₁⟩]) ++ (mid ++ [⟨"END", t₂⟩]))
          = List.foldl stepLog (foldLogs (logs ++ [⟨"END", t₁⟩]))
              (mid ++ [⟨"END", t₂⟩]) := foldLogs_append _ _
        _ = List.foldl stepLog
              (List.foldl stepLog (foldLogs (logs ++ [⟨"END", t₁⟩])) mid)
              [⟨"END", t₂⟩] := List.foldl_append _ _ _ _
        _ = List.foldl stepLog (foldLogs (logs ++ [⟨"END", t₁⟩]))
              [⟨"END", t₂⟩] := by rw [foldl_off_no_on_edge mid _ hoff h]
        _ = stepLog (foldLogs (logs ++ [⟨"END", t₁⟩])) ⟨"END", t₂⟩ := by
              rw [List.foldl_cons, List.foldl_nil]
        _ = foldLogs (logs ++ [⟨"END", t₁⟩]) :=
              stepLog_off_edge_while_off _ _ hoff (Or.inr rfl)
    unfold totalTime
    rw [hfold, if_neg (by rw [hoff]; exact Bool.false_ne_true),
      if_neg (by rw [hoff]; exact Bool.false_ne_true)]

theorem c7_witness :
    (finishRun sampleDB "r1" 60 61 none).1.timeLogs
      = sampleDB.timeLogs ++ [⟨"r1", "END", 60⟩] ∧
    totalTime ([⟨"START", 0⟩] ++ ⟨"END", 1000⟩ ::
        ([⟨"PAUSE", 3000⟩] ++ [⟨"END", 4000⟩])) 99
      = totalTime ([⟨"START", 0⟩] ++ [⟨"END", 1000⟩]) 77 :=
  ⟨c7_double_finish_duration_stable.1 sampleDB "r1" 60 61 none,
   c7_double_finish_duration_stable.2 [⟨"START", 0⟩] [⟨"PAUSE", 3000⟩]
     1000 4000 99 77 (by decide)⟩

/-- C10: a run that exists but has no time-log rows gets an elapsed total
of exactly 0 ms — the fold over the empty log ends with the clock off, so
no live now-term is added. -/
theorem c10_empty_log_zero_duration :
    ∀ (db : DB) (rid : String) (now : Int) (run : Run),
      findRun db rid = some run →
      db.timeLogs.filter (fun l => l.run_id = rid) = [] →
      calculateStatsDuration db rid now = some 0 := by
  intro db rid now run hrun hfilter
  unfold calculateStatsDuration
  rw [hrun]
  unfold runLogs
  rw [hfilter]
  rfl

theorem c10_witness : calculateStatsDuration sampleDB "r1" 123 = some 0 :=
  c10_empty_log_zero_duration sampleDB "r1" 123 sampleRun rfl rfl

lemma waitTrace_no_mutation (statuses : Nat → Int) :
    ∀ (r : Nat) (status : Int) (attempts : Nat),
      (waitTrace statuses status attempts r).1.countP isMutation = 0 := by
  intro r
  induction r with
  | zero => intro status attempts; rfl
  | succ r ih =>
    intro status attempts
    by_cases h : status = 0
    · simp [waitTrace, h]
    · simp [waitTrace, h, List.countP_cons, isMutation, ih]

lemma waitTrace_poll_bound (statuses : Nat → Int) :
    ∀ (r : Nat) (status : Int) (attempts : Nat),
      (waitTrace statuses status attempts r).1.countP isPoll ≤ r := by
  intro r
  induction r with
  | zero => intro status attempts; exact Nat.le_refl 0
  | succ r ih =>
    intro status attempts
    by_cases h : status = 0
    · simp [waitTrace, h]
    · simp only [waitTrace, h, if_false, List.countP_cons]
      have := ih (statuses (attempts + 1)) (attempts + 1)
      simp [isPoll]
      omega

lemma waitTrace_never_offline (statuses : Nat → Int) :
    ∀ (r : Nat) (status : Int) (attempts : Nat), status ≠ 0 →
      (∀ i : Nat, i ≤ attempts + r → statuses i ≠ 0) →
      (waitTrace statuses status attempts r).2 ≠ 0 := by
  intro r
  induction r with
  | zero => intro status attempts h _; exact h
  | succ r ih =>
    intro status attempts h hall
    rw [waitTrace, if_neg h]
    exact ih (statuses (attempts + 1)) (attempts + 1)
      (hall (attempts + 1) (by omega))
      (fun i hi => hall i (by omega))

/-- C8: the reset orchestration polls the remote status at most 101 times
(one initial poll plus at most 100 loop iterations), and when OFFLINE is
never observed within that bound the remaining steps are aborted: no
world-file deletion and no start call appears in its trace. -/
theorem c8_reset_bounded_polls_abort :
    (∀ statuses : Nat → Int, (resetTask statuses).countP isPoll ≤ 101) ∧
    (∀ statuses : Nat → Int, (∀ i : Nat, i ≤ 100 → statuses i ≠ 0) →
      (resetTask statuses).countP isMutation = 0) := by
  constructor
  · intro statuses
    simp only [resetTask]
    rw [List.countP_append, List.countP_cons, List.countP_cons]
    have h1 := waitTrace_poll_bound statuses 100 (statuses 0) 0
    have h2 : (if (waitTrace statuses (statuses 0) 0 100).2 ≠ 0 then []
        else [Effect.deleteFile "world", Effect.deleteFile "world_nether",
              Effect.deleteFile "world_the_end",
              Effect.startServer]).countP isPoll = 0 := by
      split <;> rfl
    have hs : (if isPoll Effect.stopServer = true then 1 else 0) = 0 := rfl
    have hg : (if isPoll Effect.getStatus = true then 1 else 0) = 1 := rfl
    rw [h2, hs, hg]
    omega
  · intro statuses hall
    have hfin : (waitTrace statuses (statuses 0) 0 100).2 ≠ 0 :=
      waitTrace_never_offline statuses 100 (statuses 0) 0
        (hall 0 (by omega)) (fun i hi => hall i (by omega))
    simp only [resetTask]
    rw [List.countP_append, List.countP_cons, List.countP_cons, if_pos hfin]
    rw [waitTrace_no_mutation statuses 100 (statuses 0) 0]
    rfl

theorem c8_witness :
    (resetTask (fun _ => 3)).countP isPoll ≤ 101 ∧
    (resetTask (fun _ => 3)).countP isMutation = 0 :=
  ⟨c8_reset_bounded_polls_abort.1 (fun _ => 3),
   c8_reset_bounded_polls_abort.2 (fun _ => 3) (by intro i _; norm_num)⟩

/-- C9: in the reseed orchestration, a failed fetch or a failed write-back
of server.properties aborts the sequence: the trace contains no
world-directory deletion and no start call. -/
theorem c9_reseed_aborts_on_props_failure :
    ∀ (env : RestartEnv) (seed : String),
      env.propsContent = none ∨ env.uploadOk = false →
      (restartTask env (some seed)).countP isMutation = 0 := by
  intro env seed h
  simp only [restartTask]
  rw [List.countP_append, List.countP_cons, List.countP_cons]
  rw [waitTrace_no_mutation env.statuses 100 (env.statuses 0) 0]
  have htail : (if (waitTrace env.statuses (env.statuses 0) 0 100).2 ≠ 0 then []
      else
        match env.propsContent with
        | none => [Effect.getFile "server.properties"]
        | some content =>
          Effect.getFile "server.properties" ::
          Effect.uploadFile "server.properties"
            (rewriteSeedProps content seed) ::
          (if env.uploadOk then
            [Effect.deleteFile "world", Effect.deleteFile "world_nether",
             Effect.deleteFile "world_the_end", Effect.startServer]
           else [])).countP isMutation = 0 := by
    split
    · rfl
    · rcases h with h | h
      · rw [h]; rfl
      · rw [h]
        cases env.propsContent with
        | none => rfl
        | some content => simp [List.countP_cons, isMutation]
  rw [htail]
  rfl

theorem c9_witness :
    (restartTask ⟨fun _ => 0, none, true⟩ (some "42")).countP isMutation = 0 :=
  c9_reseed_aborts_on_props_failure ⟨fun _ => 0, none, true⟩ "42" (Or.inl rfl)

end NakMcWorker
